/-
Verification of the request-authorization subsystem of the charm store
(src/internal/v4/auth.go together with the special principal names of
src/params/params.go).

Go strings are modelled as lists of bytes (`List Nat`, each element < 256
where it matters); the external collaborators (the bakery's token
verification `httpbakery.CheckRequest` and token minting
`Bakery.NewMacaroon`) are modelled by their injected per-request outcomes,
since their cryptographic internals live outside this repository.
-/
import Mathlib

deriving instance DecidableEq for Except

namespace CharmstoreV4

/-- A Go string, as the list of its bytes. -/
abbrev Str : Type := List Nat

/-- Byte list of an ASCII Lean string literal (for readability of claims). -/
def gostr (s : String) : Str := s.data.map Char.toNat

/-- Whitespace test used by Go's `strings.Fields` (`unicode.IsSpace`),
restricted to single bytes: tab, LF, VT, FF, CR, space.  (The two non-ASCII
Unicode spaces recognised by Go are multi-byte in UTF-8 and cannot occur as
a single byte of the inputs considered here.) -/
def isSpace (c : Nat) : Bool :=
  c == 9 || c == 10 || c == 11 || c == 12 || c == 13 || c == 32

/-- Worker for `fields`: `acc` holds the bytes of the current field,
in reverse. -/
def fieldsAux : Str → Str → List Str
  | acc, [] => if acc = [] then [] else [acc.reverse]
  | acc, c :: rest =>
    if isSpace c then
      if acc = [] then fieldsAux [] rest else acc.reverse :: fieldsAux [] rest
    else fieldsAux (c :: acc) rest

/-- Go `strings.Fields`: split around runs of whitespace, dropping empties. -/
def fields (s : Str) : List Str := fieldsAux [] s

/-- Go `strings.SplitN(s, sep, 2)` for a one-byte separator, returning the
two pieces around the first occurrence, or `none` when the separator is
absent (in which case `SplitN` returns a single token). -/
def splitOnce (sep : Nat) : Str → Option (Str × Str)
  | [] => none
  | c :: rest =>
    if c = sep then some ([], rest)
    else
      match splitOnce sep rest with
      | none => none
      | some (pre, post) => some (c :: pre, post)

/-- The standard base64 alphabet (RFC 4648 §4, Go `base64.StdEncoding`):
6-bit value to ASCII byte. -/
def b64Char (n : Nat) : Nat :=
  if n < 26 then 65 + n
  else if n < 52 then 97 + (n - 26)
  else if n < 62 then 48 + (n - 52)
  else if n = 62 then 43
  else 47

/-- Inverse alphabet lookup: ASCII byte to 6-bit value, `none` outside the
alphabet (in particular for the padding byte 61, i.e. the = sign). -/
def b64Val (c : Nat) : Option Nat :=
  if 65 ≤ c ∧ c ≤ 90 then some (c - 65)
  else if 97 ≤ c ∧ c ≤ 122 then some (c - 97 + 26)
  else if 48 ≤ c ∧ c ≤ 57 then some (c - 48 + 52)
  else if c = 43 then some 62
  else if c = 47 then some 63
  else none

/-- Standard base64 encoding with padding (RFC 4648 §4, as produced by Go's
`base64.StdEncoding.EncodeToString`); used to state the Basic-header
round-trip property. -/
def b64Encode : List Nat → List Nat
  | [] => []
  | [a] => [b64Char (a / 4), b64Char (a % 4 * 16), 61, 61]
  | [a, b] => [b64Char (a / 4), b64Char (a % 4 * 16 + b / 16), b64Char (b % 16 * 4), 61]
  | a :: b :: c :: rest =>
      b64Char (a / 4) :: b64Char (a % 4 * 16 + b / 16) ::
        b64Char (b % 16 * 4 + c / 64) :: b64Char (c % 64) :: b64Encode rest

/-- Block-wise standard base64 decoding: the input must be a sequence of
4-byte blocks, padding (byte 61) allowed only at the end of the final
block.  Trailing bits beyond the declared length are discarded, as Go's
non-strict `StdEncoding` does. -/
def b64DecBlocks : List Nat → Option (List Nat)
  | [] => some []
  | w :: x :: y :: z :: rest =>
    if y = 61 ∧ z = 61 ∧ rest = [] then
      match b64Val w, b64Val x with
      | some vw, some vx => some [vw * 4 + vx / 16]
      | _, _ => none
    else if z = 61 ∧ rest = [] then
      match b64Val w, b64Val x, b64Val y with
      | some vw, some vx, some vy =>
          some [vw * 4 + vx / 16, vx % 16 * 16 + vy / 4]
      | _, _, _ => none
    else
      match b64Val w, b64Val x, b64Val y, b64Val z, b64DecBlocks rest with
      | some vw, some vx, some vy, some vz, some tail =>
          some ((vw * 4 + vx / 16) :: (vx % 16 * 16 + vy / 4) ::
            (vy % 4 * 64 + vz) :: tail)
      | _, _, _, _, _ => none
  | _ => none

/-- Go `base64.StdEncoding.DecodeString`: CR and LF bytes are ignored
anywhere in the input, then the remainder is decoded block-wise. -/
def decodeString (s : Str) : Option Str :=
  b64DecBlocks (s.filter fun c => !(c == 10 || c == 13))

namespace params

/-- src/params/params.go: special principal granting access to anyone. -/
def Everyone : Str := gostr "everyone"

/-- src/params/params.go: special principal name "admin" (defined there,
never consulted by checkACLMembership). -/
def Admin : Str := gostr "admin"

end params

/-- Outcomes of parseCredentials (src/internal/v4/auth.go lines 171-191):
`errNoCreds` is the sentinel "missing HTTP auth header"; the others are
the three "invalid HTTP auth ..." errors. -/
inductive ParseCredErr : Type
  | errNoCreds
  | invalidHeader
  | invalidEncoding
  | invalidContents
deriving DecidableEq, Repr

/-- Attribute map returned by the bakery's token verification
(`map[string]string`; a missing key reads as the empty string). -/
abbrev AttrMap : Type := Str → Str

/-- Error from the external `httpbakery.CheckRequest` collaborator,
discriminated by whether its errgo cause is a `*bakery.VerificationError`. -/
inductive BakeryErr : Type
  | verification (msg : String)
  | other (msg : String)
deriving DecidableEq, Repr

/-- An opaque minted macaroon; this subsystem never inspects its
structure. -/
structure Macaroon : Type where
  tokenId : Nat
deriving DecidableEq, Repr

/-- The handler configuration consulted by auth.go (`h.config`):
admin credentials and the third-party identity-verification location. -/
structure Config : Type where
  AuthUsername : Str
  AuthPassword : Str
  IdentityLocation : Str

/-- The store as seen by auth.go (`h.store`): whether `h.store.Bakery` is
non-nil, and the injected outcome of the external `Bakery.NewMacaroon`
call. -/
structure Store : Type where
  BakeryPresent : Bool
  NewMacaroonResult : Except String Macaroon

/-- The v4 API handler state consulted during authorization. -/
structure Handler : Type where
  config : Config
  store : Store

/-- An HTTP request as consulted by auth.go: the method, the value of the
"Authorization" header (empty list when absent), and the injected outcome
of the external `httpbakery.CheckRequest` token verification on this
request's cookies. -/
structure Request : Type where
  Method : Str
  AuthHeaderValue : Str
  bakeryCheck : Except BakeryErr AttrMap

/-- `req` with a different token-verification outcome; used to state that
an execution path never consults the token verifier. -/
def withBakeryCheck (req : Request) (bc : Except BakeryErr AttrMap) : Request :=
  Request.mk req.Method req.AuthHeaderValue bc

/-- Authorization information extracted from a request
(src/internal/v4/auth.go lines 128-133); the zero value carries no
privileges. -/
structure authorization : Type where
  Admin : Bool
  Username : Str
  Groups : List Str
deriving DecidableEq, Repr

/-- src/internal/v4/auth.go: attribute key "username". -/
def usernameAttr : Str := gostr "username"

/-- src/internal/v4/auth.go: attribute key "groups". -/
def groupsAttr : Str := gostr "groups"

/-- src/internal/v4/auth.go lines 171-191: parse the request's
HTTP basic auth credentials from its "Authorization" header. -/
def parseCredentials (req : Request) : Except ParseCredErr (Str × Str) :=
  let auth := req.AuthHeaderValue
  if auth = [] then Except.error ParseCredErr.errNoCreds
  else
    match fields auth with
    | [scheme, payload] =>
      if scheme ≠ gostr "Basic" then Except.error ParseCredErr.invalidHeader
      else
        match decodeString payload with
        | none => Except.error ParseCredErr.invalidEncoding
        | some challenge =>
          match splitOnce 58 challenge with
          | none => Except.error ParseCredErr.invalidContents
          | some (user, passwd) => Except.ok (user, passwd)
    | _ => Except.error ParseCredErr.invalidHeader

/-- Errors from checkRequest: either an error whose errgo cause is
`params.ErrUnauthorized` (with the given message), or the masked error of
the token-verification collaborator (whose cause survives
`errgo.Mask(err, errgo.Any)`). -/
inductive CheckReqErr : Type
  | unauthorized (msg : String)
  | masked (e : BakeryErr)
deriving DecidableEq, Repr

/-- src/internal/v4/auth.go lines 78-99: resolve the request into an
authorization, trying basic-auth admin credentials first and token
verification second. -/
def checkRequest (h : Handler) (req : Request) : Except CheckReqErr authorization :=
  match parseCredentials req with
  | Except.ok (user, passwd) =>
    if user ≠ h.config.AuthUsername ∨ passwd ≠ h.config.AuthPassword then
      Except.error (CheckReqErr.unauthorized "invalid user name or password")
    else Except.ok (authorization.mk true [] [])
  | Except.error err =>
    if err ≠ ParseCredErr.errNoCreds ∨ h.store.BakeryPresent = false ∨
        h.config.IdentityLocation = [] then
      Except.error (CheckReqErr.unauthorized "authentication failed")
    else
      match req.bakeryCheck with
      | Except.error e => Except.error (CheckReqErr.masked e)
      | Except.ok attrMap =>
          Except.ok (authorization.mk false (attrMap usernameAttr)
            (fields (attrMap groupsAttr)))

/-- Failures of checkACLMembership (src/internal/v4/auth.go lines
135-155): "no username declared", or "access denied for user %q" carrying
the denied username. -/
inductive ACLErr : Type
  | noUsernameDeclared
  | accessDenied (username : Str)
deriving DecidableEq, Repr

/-- src/internal/v4/auth.go lines 135-155: membership of the authorization
in the ACL.  The Go code builds a set `members` containing "everyone", the
username and the groups, then scans the ACL for a member. -/
def checkACLMembership (auth : authorization) (acl : List Str) : Except ACLErr Unit :=
  if auth.Admin then Except.ok ()
  else if auth.Username = [] then Except.error ACLErr.noUsernameDeclared
  else
    let members : List Str := params.Everyone :: auth.Username :: auth.Groups
    if acl.any (fun name => members.contains name) then Except.ok ()
    else Except.error (ACLErr.accessDenied auth.Username)

/-- src/internal/v4/auth.go lines 157-165: mint a fresh macaroon from the
external bakery; the caveat contents are fixed, so the external call is
modelled by its injected outcome. -/
def newMacaroon (h : Handler) : Except String Macaroon :=
  h.store.NewMacaroonResult

/-- Outcome of authorize, discriminated exactly as the returned Go error
values are: `allow` is a nil error; `unauthorizedCreds`/`unauthorizedACL`
have errgo cause `params.ErrUnauthorized`; `dischargeRequired` is the
`httpbakery.NewDischargeRequiredError(m, cookiePath, cause)` value;
`cannotMint` is the `errgo.Notef(err, "cannot mint macaroon")` error;
`otherError` is a masked error with an undisclosed cause. -/
inductive AuthResult : Type
  | allow
  | unauthorizedCreds (msg : String)
  | unauthorizedACL (e : ACLErr)
  | dischargeRequired (m : Macaroon) (cookiePath : Str) (cause : BakeryErr)
  | cannotMint (msg : String)
  | otherError (msg : String)
deriving DecidableEq, Repr

/-- src/internal/v4/auth.go lines 35-73: the authorization decision for a
request against an ACL. -/
def authorize (h : Handler) (req : Request) (acl : List Str) : AuthResult :=
  if acl.any (fun name => name == params.Everyone) then AuthResult.allow
  else
    match checkRequest h req with
    | Except.ok auth =>
      match checkACLMembership auth acl with
      | Except.ok _ => AuthResult.allow
      | Except.error e => AuthResult.unauthorizedACL e
    | Except.error verr =>
      match verr with
      | CheckReqErr.unauthorized msg => AuthResult.unauthorizedCreds msg
      | CheckReqErr.masked (BakeryErr.other msg) => AuthResult.otherError msg
      | CheckReqErr.masked (BakeryErr.verification msg) =>
        match newMacaroon h with
        | Except.ok m =>
            AuthResult.dischargeRequired m (gostr "/") (BakeryErr.verification msg)
        | Except.error e => AuthResult.cannotMint e

/-- src/internal/v4/auth.go lines 111-120: select the Write ACL for
mutating methods and the Read ACL otherwise, then authorize. -/
def authorizeWithPerms (h : Handler) (req : Request) (read write : List Str) :
    AuthResult :=
  let acl :=
    if req.Method = gostr "DELETE" ∨ req.Method = gostr "PATCH" ∨
        req.Method = gostr "POST" ∨ req.Method = gostr "PUT" then write
    else read
  authorize h req acl

/-! ### Base64 and header-parsing lemmas -/

theorem b64Val_b64Char : ∀ n < 64, b64Val (b64Char n) = some n := by decide

theorem b64Char_ne_61 (n : Nat) : b64Char n ≠ 61 := by
  unfold b64Char
  split
  · omega
  · split
    · omega
    · split
      · omega
      · split <;> omega

theorem isSpace_b64Char (n : Nat) : isSpace (b64Char n) = false := by
  unfold b64Char isSpace
  split
  · simp
    omega
  · split
    · simp
      omega
    · split
      · simp
        omega
      · split <;> simp

theorem b64Encode_isSpace (bs : List Nat) :
    ∀ c ∈ b64Encode bs, isSpace c = false := by
  induction bs using b64Encode.induct with
  | case1 => simp [b64Encode]
  | case2 a => simp [b64Encode, isSpace_b64Char]; decide
  | case3 a b => simp [b64Encode, isSpace_b64Char]; decide
  | case4 a b c rest ih =>
    simp only [b64Encode, List.mem_cons]
    intro x hx
    rcases hx with h | h | h | h | h
    · simp [h, isSpace_b64Char]
    · simp [h, isSpace_b64Char]
    · simp [h, isSpace_b64Char]
    · simp [h, isSpace_b64Char]
    · exact ih x h

theorem b64Encode_ne_nil (bs : List Nat) (h : bs ≠ []) : b64Encode bs ≠ [] := by
  match bs with
  | [] => exact absurd rfl h
  | [a] => simp [b64Encode]
  | [a, b] => simp [b64Encode]
  | a :: b :: c :: rest => simp [b64Encode]

theorem b64DecBlocks_b64Encode (bs : List Nat) (h : ∀ b ∈ bs, b < 256) :
    b64DecBlocks (b64Encode bs) = some bs := by
  induction bs using b64Encode.induct with
  | case1 => rfl
  | case2 a =>
    have ha : a < 256 := h a (by simp)
    have h1 : a / 4 < 64 := by omega
    have h2 : a % 4 * 16 < 64 := by omega
    simp [b64Encode, b64DecBlocks, b64Val_b64Char _ h1, b64Val_b64Char _ h2]
    omega
  | case3 a b =>
    have ha : a < 256 := h a (by simp)
    have hb : b < 256 := h b (by simp)
    have h1 : a / 4 < 64 := by omega
    have h2 : a % 4 * 16 + b / 16 < 64 := by omega
    have h3 : b % 16 * 4 < 64 := by omega
    simp [b64Encode, b64DecBlocks, b64Char_ne_61,
      b64Val_b64Char _ h1, b64Val_b64Char _ h2, b64Val_b64Char _ h3]
    omega
  | case4 a b c rest ih =>
    have ha : a < 256 := h a (by simp)
    have hb : b < 256 := h b (by simp)
    have hc : c < 256 := h c (by simp)
    have h1 : a / 4 < 64 := by omega
    have h2 : a % 4 * 16 + b / 16 < 64 := by omega
    have h3 : b % 16 * 4 + c / 64 < 64 := by omega
    have h4 : c % 64 < 64 := by omega
    have ihr : b64DecBlocks (b64Encode rest) = some rest :=
      ih (fun x hx => h x (by simp [hx]))
    simp [b64Encode, b64DecBlocks, b64Char_ne_61, ihr,
      b64Val_b64Char _ h1, b64Val_b64Char _ h2, b64Val_b64Char _ h3,
      b64Val_b64Char _ h4]
    omega

theorem filter_crlf_of_nospace (l : Str) (h : ∀ c ∈ l, isSpace c = false) :
    (l.filter fun c => !(c == 10 || c == 13)) = l := by
  apply List.filter_eq_self.mpr
  intro a ha
  have := h a ha
  simp only [isSpace, Bool.or_eq_false_iff, beq_eq_false_iff_ne] at this
  simp [this.1.1.1.1.2, this.1.2]

theorem decodeString_b64Encode (bs : List Nat) (h : ∀ b ∈ bs, b < 256) :
    decodeString (b64Encode bs) = some bs := by
  unfold decodeString
  rw [filter_crlf_of_nospace _ (b64Encode_isSpace bs),
    b64DecBlocks_b64Encode bs h]

theorem fieldsAux_nospace (l : Str) (h : ∀ c ∈ l, isSpace c = false) :
    ∀ acc : Str, fieldsAux acc l =
      if acc = [] ∧ l = [] then [] else [acc.reverse ++ l] := by
  induction l with
  | nil =>
    intro acc
    by_cases hacc : acc = []
    · simp [fieldsAux, hacc]
    · simp [fieldsAux, hacc]
  | cons c rest ih =>
    intro acc
    have hc : isSpace c = false := h c (by simp)
    have hrest : ∀ x ∈ rest, isSpace x = false := fun x hx => h x (by simp [hx])
    simp only [fieldsAux, hc, Bool.false_eq_true, if_false]
    rw [ih hrest (c :: acc)]
    simp

theorem fields_basic_header (payload : Str) (hne : payload ≠ [])
    (hsp : ∀ c ∈ payload, isSpace c = false) :
    fields (gostr "Basic " ++ payload) = [gostr "Basic", payload] := by
  have : gostr "Basic " ++ payload =
      66 :: 97 :: 115 :: 105 :: 99 :: 32 :: payload := rfl
  rw [fields, this]
  show (if isSpace 66 = true then _ else _) = _
  norm_num [fieldsAux, isSpace]
  rw [fieldsAux_nospace payload hsp []]
  simp [hne]
  rfl

theorem splitOnce_first (user pass : Str) (h : 58 ∉ user) :
    splitOnce 58 (user ++ 58 :: pass) = some (user, pass) := by
  induction user with
  | nil => simp [splitOnce]
  | cons c rest ih =>
    have hc : c ≠ 58 := fun hcc => h (by simp [hcc])
    have hr : 58 ∉ rest := fun hrr => h (by simp [hrr])
    simp only [List.cons_append, splitOnce, hc, if_false, List.append_eq, ih hr]

theorem any_everyone_eq_false (acl : List Str)
    (hnot : params.Everyone ∉ acl) :
    (acl.any fun name => name == params.Everyone) = false := by
  cases hcase : acl.any fun name => name == params.Everyone
  · rfl
  · exfalso
    obtain ⟨x, hx, hbe⟩ := List.any_eq_true.mp hcase
    exact hnot ((beq_iff_eq.mp hbe) ▸ hx)

/-! ### ACL membership characterization -/

theorem checkACLMembership_nonadmin (auth : authorization) (acl : List Str)
    (hadm : auth.Admin = false) (hu : auth.Username ≠ []) :
    checkACLMembership auth acl =
      if ∃ n ∈ acl, n = params.Everyone ∨ n = auth.Username ∨ n ∈ auth.Groups
      then Except.ok ()
      else Except.error (ACLErr.accessDenied auth.Username) := by
  have hmem : (acl.any fun name =>
      (params.Everyone :: auth.Username :: auth.Groups).contains name) = true ↔
      ∃ n ∈ acl, n = params.Everyone ∨ n = auth.Username ∨ n ∈ auth.Groups := by
    simp only [List.any_eq_true, List.contains_eq_any_beq, List.mem_cons,
      beq_iff_eq]
    constructor
    · rintro ⟨n, hn, hc⟩
      refine ⟨n, hn, ?_⟩
      simpa [eq_comm] using hc
    · rintro ⟨n, hn, hc⟩
      refine ⟨n, hn, ?_⟩
      simpa [eq_comm] using hc
  unfold checkACLMembership
  rw [hadm, if_neg (by simp), if_neg hu]
  by_cases hex : ∃ n ∈ acl, n = params.Everyone ∨ n = auth.Username ∨ n ∈ auth.Groups
  · rw [if_pos hex, if_pos (hmem.mpr hex)]
  · rw [if_neg hex, if_neg (by rw [hmem]; exact hex)]

/-- C1: for every ACL containing "everyone" and every request and handler
(whatever credentials or collaborator outcomes they carry), authorize
returns Allow, so no authentication, credential parsing, or token
verification can influence the outcome. -/
theorem authorize_everyone_allows (h : Handler) (req : Request) (acl : List Str)
    (hmem : params.Everyone ∈ acl) : authorize h req acl = AuthResult.allow := by
  have hany : (acl.any fun name => name == params.Everyone) = true :=
    List.any_eq_true.mpr ⟨params.Everyone, hmem, by simp⟩
  simp [authorize, hany]

/-- Witness for C1: an open ACL with a request that carries wrong Basic
credentials and a failing token verifier is still allowed. -/
theorem authorize_everyone_allows_witness :
    authorize
      (Handler.mk (Config.mk (gostr "admin") (gostr "secret") (gostr "loc"))
        (Store.mk true (Except.ok (Macaroon.mk 7))))
      (Request.mk (gostr "GET") (gostr "Basic " ++ b64Encode (gostr "bob:wrong"))
        (Except.error (BakeryErr.other "network failure")))
      [gostr "bob", params.Everyone] = AuthResult.allow :=
  authorize_everyone_allows _ _ _ (by decide)

/-- C4 counterexample: the claim quantifies over every (Authorization, ACL)
pair, but an admin Authorization is granted access against the empty ACL
although the membership set has empty intersection with it, and a non-admin
Authorization with empty Username is rejected with a different error even
though its membership set contains "everyone" and the ACL is
["everyone"]. -/
theorem acl_intersection_claim_counterexample :
    (checkACLMembership (authorization.mk true (gostr "alice") []) [] =
        Except.ok () ∧
      List.inter ([] : List Str)
        (params.Everyone :: gostr "alice" :: ([] : List Str)) = []) ∧
    (checkACLMembership (authorization.mk false [] []) [params.Everyone] =
        Except.error ACLErr.noUsernameDeclared ∧
      params.Everyone ∈ [params.Everyone]) :=
  ⟨⟨by decide, by decide⟩, ⟨by decide, by simp⟩⟩

/-- C4 (amended): for every NON-ADMIN Authorization WITH NON-EMPTY
Username and every ACL, access is granted iff the membership set
consisting of "everyone", the Username and the Groups intersects the ACL;
when they are disjoint the evaluator fails with AccessDenied naming the
username; and the decision depends only on the member sets of the ACL and
of Groups, not on their order or multiplicity. -/
theorem acl_membership_characterization (auth : authorization) (acl : List Str)
    (hadm : auth.Admin = false) (hu : auth.Username ≠ []) :
    (checkACLMembership auth acl = Except.ok () ↔
      ∃ n ∈ acl, n = params.Everyone ∨ n = auth.Username ∨ n ∈ auth.Groups) ∧
    ((¬ ∃ n ∈ acl, n = params.Everyone ∨ n = auth.Username ∨ n ∈ auth.Groups) →
      checkACLMembership auth acl =
        Except.error (ACLErr.accessDenied auth.Username)) ∧
    (∀ acl₂ groups₂ : List Str, (∀ n, n ∈ acl ↔ n ∈ acl₂) →
      (∀ n, n ∈ auth.Groups ↔ n ∈ groups₂) →
      checkACLMembership auth acl =
        checkACLMembership (authorization.mk false auth.Username groups₂) acl₂) := by
  refine ⟨?_, ?_, ?_⟩
  · rw [checkACLMembership_nonadmin auth acl hadm hu]
    by_cases hex : ∃ n ∈ acl, n = params.Everyone ∨ n = auth.Username ∨ n ∈ auth.Groups
    · simp [hex]
    · simp [hex]
  · intro hex
    rw [checkACLMembership_nonadmin auth acl hadm hu, if_neg hex]
  · intro acl₂ groups₂ ha hg
    rw [checkACLMembership_nonadmin auth acl hadm hu,
      checkACLMembership_nonadmin (authorization.mk false auth.Username groups₂)
        acl₂ rfl hu]
    refine if_congr ?_ rfl rfl
    constructor
    · rintro ⟨n, hn, hc⟩
      refine ⟨n, (ha n).mp hn, ?_⟩
      rcases hc with hcc | hcc | hcc
      · exact Or.inl hcc
      · exact Or.inr (Or.inl hcc)
      · exact Or.inr (Or.inr ((hg n).mp hcc))
    · rintro ⟨n, hn, hc⟩
      refine ⟨n, (ha n).mpr hn, ?_⟩
      rcases hc with hcc | hcc | hcc
      · exact Or.inl hcc
      · exact Or.inr (Or.inl hcc)
      · exact Or.inr (Or.inr ((hg n).mpr hcc))

/-- Witness for the amended C4: a user granted through a group, with the
ACL and the groups permuted and duplicated. -/
theorem acl_membership_characterization_witness :
    checkACLMembership (authorization.mk false (gostr "bob") [gostr "devs"])
        [gostr "ops", gostr "devs"] = Except.ok () ∧
      checkACLMembership (authorization.mk false (gostr "bob") [gostr "devs"])
        [gostr "ops", gostr "devs"] =
      checkACLMembership
        (authorization.mk false (gostr "bob") [gostr "devs", gostr "devs"])
        [gostr "devs", gostr "ops", gostr "ops"] :=
  ⟨(acl_membership_characterization
      (authorization.mk false (gostr "bob") [gostr "devs"])
      [gostr "ops", gostr "devs"] rfl (by decide)).1.mpr (by decide),
    (acl_membership_characterization
      (authorization.mk false (gostr "bob") [gostr "devs"])
      [gostr "ops", gostr "devs"] rfl (by decide)).2.2
      [gostr "devs", gostr "ops", gostr "ops"] [gostr "devs", gostr "devs"]
      (by intro n; simp [List.mem_cons]; try tauto)
      (by intro n; simp [List.mem_cons]; try tauto)⟩

/-- C5: an Authorization with Admin=true is allowed against every ACL,
including the empty one and ACLs matching nothing; end to end, a request
whose Basic credentials equal the configured admin credentials is allowed
against the ACL ["someoneelse"]. -/
theorem admin_bypasses_acl (auth : authorization) (acl : List Str)
    (hadm : auth.Admin = true) (hh : Handler) (req : Request)
    (hcred : parseCredentials req =
      Except.ok (hh.config.AuthUsername, hh.config.AuthPassword)) :
    checkACLMembership auth acl = Except.ok () ∧
    authorize hh req [gostr "someoneelse"] = AuthResult.allow := by
  constructor
  · simp [checkACLMembership, hadm]
  · have hck : checkRequest hh req = Except.ok (authorization.mk true [] []) := by
      unfold checkRequest
      rw [hcred]
      simp
    have hany :
        ([gostr "someoneelse"].any fun name => name == params.Everyone) = false := by
      decide
    simp [authorize, hany, hck, checkACLMembership]

/-- Witness for C5: admin authorization against the empty ACL, and a
request with the exact configured admin credentials against
["someoneelse"]. -/
theorem admin_bypasses_acl_witness :
    checkACLMembership (authorization.mk true [] []) [] = Except.ok () ∧
    authorize
      (Handler.mk (Config.mk (gostr "admin") (gostr "secret") (gostr "loc"))
        (Store.mk true (Except.ok (Macaroon.mk 7))))
      (Request.mk (gostr "PUT") (gostr "Basic " ++ b64Encode (gostr "admin:secret"))
        (Except.error (BakeryErr.other "network failure")))
      [gostr "someoneelse"] = AuthResult.allow :=
  admin_bypasses_acl (authorization.mk true [] []) [] rfl _ _ (by decide)

/-- C6: a non-admin Authorization with empty Username fails with the
"no username declared" error for every ACL and whatever the Groups are,
before any membership test. -/
theorem empty_username_invalid (auth : authorization) (acl : List Str)
    (hadm : auth.Admin = false) (hu : auth.Username = []) :
    checkACLMembership auth acl = Except.error ACLErr.noUsernameDeclared := by
  simp [checkACLMembership, hadm, hu]

/-- Witness for C6: even with a matching group and an open ACL entry, the
empty username is rejected with InvalidIdentity. -/
theorem empty_username_invalid_witness :
    checkACLMembership (authorization.mk false [] [gostr "devs"])
      [params.Everyone, gostr "devs"] = Except.error ACLErr.noUsernameDeclared :=
  empty_username_invalid _ _ rfl rfl

/-- C10: the ACL entry "admin" is not special: a non-admin Authorization is
granted against the ACL ["admin"] exactly when its Username or one of its
Groups is literally the string "admin", while the Admin=true bypass is
decided solely by the Authorization's flag, whatever the ACL contains. -/
theorem admin_entry_not_special (auth : authorization)
    (hadm : auth.Admin = false) (hu : auth.Username ≠ []) :
    (checkACLMembership auth [params.Admin] = Except.ok () ↔
      (auth.Username = params.Admin ∨ params.Admin ∈ auth.Groups)) ∧
    (∀ (acl : List Str) (u : Str) (g : List Str),
      checkACLMembership (authorization.mk true u g) acl = Except.ok ()) := by
  constructor
  · rw [checkACLMembership_nonadmin auth [params.Admin] hadm hu]
    constructor
    · intro hok
      by_cases hex : ∃ n ∈ [params.Admin],
          n = params.Everyone ∨ n = auth.Username ∨ n ∈ auth.Groups
      · obtain ⟨n, hn, hc⟩ := hex
        simp only [List.mem_singleton] at hn
        subst hn
        rcases hc with hcc | hcc | hcc
        · exact absurd hcc (by decide)
        · exact Or.inl hcc.symm
        · exact Or.inr hcc
      · rw [if_neg hex] at hok
        exact absurd hok (by simp)
    · intro hc
      have hex : ∃ n ∈ [params.Admin],
          n = params.Everyone ∨ n = auth.Username ∨ n ∈ auth.Groups := by
        refine ⟨params.Admin, by simp, ?_⟩
        rcases hc with hcc | hcc
        · exact Or.inr (Or.inl hcc.symm)
        · exact Or.inr (Or.inr hcc)
      rw [if_pos hex]
  · intro acl u g
    simp [checkACLMembership]

/-- Witness for C10: the user literally named "admin" passes the ["admin"]
ACL; the flag bypass holds at a concrete ACL naming nobody. -/
theorem admin_entry_not_special_witness :
    checkACLMembership (authorization.mk false (gostr "admin") [])
        [params.Admin] = Except.ok () ∧
      checkACLMembership (authorization.mk true (gostr "x") [])
        [gostr "nobody"] = Except.ok () :=
  ⟨(admin_entry_not_special (authorization.mk false (gostr "admin") []) rfl
      (by decide)).1.mpr (Or.inl (by decide)),
    (admin_entry_not_special (authorization.mk false (gostr "y") []) rfl
      (by decide)).2 [gostr "nobody"] (gostr "x") []⟩

/-- C2: a request whose Basic header parses to a (username, password) pair
different from the configured admin credentials makes checkRequest fail
with "invalid user name or password" whatever the token verifier would
answer (so verification is never consulted), and against every non-open
ACL the authorize outcome is that Unauthorized error, never
DischargeRequired. -/
theorem wrong_basic_creds_unauthorized (hh : Handler) (req : Request)
    (user passwd : Str)
    (hparse : parseCredentials req = Except.ok (user, passwd))
    (hmis : user ≠ hh.config.AuthUsername ∨ passwd ≠ hh.config.AuthPassword) :
    (∀ bc, checkRequest hh (withBakeryCheck req bc) =
      Except.error (CheckReqErr.unauthorized "invalid user name or password")) ∧
    (∀ (acl : List Str) (bc : Except BakeryErr AttrMap),
      params.Everyone ∉ acl →
      authorize hh (withBakeryCheck req bc) acl =
        AuthResult.unauthorizedCreds "invalid user name or password") := by
  have hparse2 : ∀ bc, parseCredentials (withBakeryCheck req bc) =
      Except.ok (user, passwd) := fun _ => hparse
  have hck : ∀ bc, checkRequest hh (withBakeryCheck req bc) =
      Except.error (CheckReqErr.unauthorized "invalid user name or password") := by
    intro bc
    simp only [checkRequest, hparse2 bc]
    rw [if_pos hmis]
  refine ⟨hck, ?_⟩
  intro acl bc hnot
  have hany : (acl.any fun name => name == params.Everyone) = false :=
    any_everyone_eq_false acl hnot
  simp [authorize, hany, hck bc]

/-- Witness for C2: admin username with a wrong password against the ACL
["bob"], with a token verifier that would have succeeded. -/
theorem wrong_basic_creds_unauthorized_witness :
    authorize
      (Handler.mk (Config.mk (gostr "admin") (gostr "secret") (gostr "loc"))
        (Store.mk true (Except.ok (Macaroon.mk 7))))
      (withBakeryCheck
        (Request.mk (gostr "GET")
          (gostr "Basic " ++ b64Encode (gostr "admin:wrong"))
          (Except.error (BakeryErr.verification "v")))
        (Except.ok fun _ => []))
      [gostr "bob"] =
      AuthResult.unauthorizedCreds "invalid user name or password" :=
  (wrong_basic_creds_unauthorized _
    (Request.mk (gostr "GET") (gostr "Basic " ++ b64Encode (gostr "admin:wrong"))
      (Except.error (BakeryErr.verification "v")))
    (gostr "admin") (gostr "wrong") (by decide) (by decide)).2
    [gostr "bob"] (Except.ok fun _ => []) (by decide)

/-- C3: with no credentials supplied, the bakery configured, an identity
location configured and a non-open ACL, a verification-kind failure of the
token verifier makes authorize mint a macaroon and return
DischargeRequired with that macaroon, cookie path "/" and the verification
failure as cause; if minting fails the outcome is the "cannot mint
macaroon" error, not DischargeRequired. -/
theorem no_creds_discharge_required (hh : Handler) (req : Request)
    (acl : List Str) (msg : String)
    (hparse : parseCredentials req = Except.error ParseCredErr.errNoCreds)
    (hbak : hh.store.BakeryPresent = true)
    (hloc : hh.config.IdentityLocation ≠ [])
    (hnot : params.Everyone ∉ acl)
    (hver : req.bakeryCheck = Except.error (BakeryErr.verification msg)) :
    (∀ m, hh.store.NewMacaroonResult = Except.ok m →
      authorize hh req acl =
        AuthResult.dischargeRequired m (gostr "/") (BakeryErr.verification msg)) ∧
    (∀ err, hh.store.NewMacaroonResult = Except.error err →
      authorize hh req acl = AuthResult.cannotMint err) := by
  have hck : checkRequest hh req =
      Except.error (CheckReqErr.masked (BakeryErr.verification msg)) := by
    simp only [checkRequest, hparse]
    rw [if_neg (by simp [hbak, hloc]), hver]
  have hany : (acl.any fun name => name == params.Everyone) = false :=
    any_everyone_eq_false acl hnot
  constructor
  · intro m hm
    simp [authorize, hany, hck, newMacaroon, hm]
  · intro err herr
    simp [authorize, hany, hck, newMacaroon, herr]

/-- Witness for C3: both the successful-mint and the failed-mint outcomes
at concrete inputs with absent Authorization header. -/
theorem no_creds_discharge_required_witness :
    authorize
      (Handler.mk (Config.mk (gostr "admin") (gostr "secret") (gostr "loc"))
        (Store.mk true (Except.ok (Macaroon.mk 7))))
      (Request.mk (gostr "GET") []
        (Except.error (BakeryErr.verification "verification failed")))
      [gostr "bob"] =
      AuthResult.dischargeRequired (Macaroon.mk 7) (gostr "/")
        (BakeryErr.verification "verification failed") ∧
    authorize
      (Handler.mk (Config.mk (gostr "admin") (gostr "secret") (gostr "loc"))
        (Store.mk true (Except.error "bakery down")))
      (Request.mk (gostr "GET") []
        (Except.error (BakeryErr.verification "verification failed")))
      [gostr "bob"] = AuthResult.cannotMint "bakery down" :=
  ⟨(no_creds_discharge_required _ _ _ "verification failed" (by decide) rfl
      (by decide) (by decide) rfl).1 (Macaroon.mk 7) rfl,
    (no_creds_discharge_required _ _ _ "verification failed" (by decide) rfl
      (by decide) (by decide) rfl).2 "bakery down" rfl⟩

/-- C8: when credential extraction fails with anything other than the
missing-credentials sentinel, or it fails with that sentinel but the
bakery is absent or the identity-verification location is empty,
checkRequest fails with "authentication failed" whatever the token
verifier would answer (so it is never consulted). -/
theorem missing_or_malformed_auth_failed (hh : Handler) (req : Request)
    (e : ParseCredErr)
    (hparse : parseCredentials req = Except.error e)
    (hcond : e ≠ ParseCredErr.errNoCreds ∨ hh.store.BakeryPresent = false ∨
      hh.config.IdentityLocation = []) :
    ∀ bc, checkRequest hh (withBakeryCheck req bc) =
      Except.error (CheckReqErr.unauthorized "authentication failed") := by
  intro bc
  have hparse2 : parseCredentials (withBakeryCheck req bc) =
      Except.error e := hparse
  simp only [checkRequest, hparse2]
  rw [if_pos hcond]

/-- Witness for C8: a malformed (non-base64) Basic header with the bakery
present and an identity location configured, under a verifier that would
have succeeded. -/
theorem missing_or_malformed_auth_failed_witness :
    checkRequest
      (Handler.mk (Config.mk (gostr "admin") (gostr "secret") (gostr "loc"))
        (Store.mk true (Except.ok (Macaroon.mk 7))))
      (withBakeryCheck
        (Request.mk (gostr "GET") (gostr "Basic !!!not-base64!!!")
          (Except.error (BakeryErr.verification "v")))
        (Except.ok fun _ => [])) =
      Except.error (CheckReqErr.unauthorized "authentication failed") :=
  missing_or_malformed_auth_failed _
    (Request.mk (gostr "GET") (gostr "Basic !!!not-base64!!!")
      (Except.error (BakeryErr.verification "v")))
    ParseCredErr.invalidEncoding (by decide) (by decide)
    (Except.ok fun _ => [])

/-- C7: for every username without a colon and every password (both made
of bytes), the header "Basic " followed by the standard base64 encoding of
username:password parses back to exactly that pair, splitting the decoded
challenge at its first colon only. -/
theorem parseCredentials_basic_roundtrip (req : Request) (user pass : Str)
    (hu : ∀ c ∈ user, c < 256) (hp : ∀ c ∈ pass, c < 256)
    (hcolon : 58 ∉ user)
    (hhdr : req.AuthHeaderValue =
      gostr "Basic " ++ b64Encode (user ++ 58 :: pass)) :
    parseCredentials req = Except.ok (user, pass) := by
  have hbytes : ∀ c ∈ user ++ 58 :: pass, c < 256 := by
    intro c hc
    rcases List.mem_append.mp hc with hcu | hcp
    · exact hu c hcu
    · rcases List.mem_cons.mp hcp with hc58 | hcc
      · omega
      · exact hp c hcc
  have hne : b64Encode (user ++ 58 :: pass) ≠ [] :=
    b64Encode_ne_nil _ (by simp)
  have hhdrne : gostr "Basic " ++ b64Encode (user ++ 58 :: pass) ≠ [] := by
    simp [gostr]
  unfold parseCredentials
  rw [hhdr, if_neg hhdrne,
    fields_basic_header _ hne (b64Encode_isSpace _)]
  simp [decodeString_b64Encode _ hbytes, splitOnce_first user pass hcolon]

/-- Witness for C7: the round trip for "alice" with password "pa:ss",
whose colon must not split the password further. -/
theorem parseCredentials_basic_roundtrip_witness :
    parseCredentials
      (Request.mk (gostr "GET")
        (gostr "Basic " ++ b64Encode (gostr "alice" ++ 58 :: gostr "pa:ss"))
        (Except.error (BakeryErr.other "x"))) =
      Except.ok (gostr "alice", gostr "pa:ss") :=
  parseCredentials_basic_roundtrip _ (gostr "alice") (gostr "pa:ss")
    (by decide) (by decide) (by decide) rfl

/-- C9: authorizeWithPerms evaluates the Write ACL exactly for the methods
DELETE, PATCH, POST and PUT, and the Read ACL for every other method. -/
theorem method_selects_acl (hh : Handler) (req : Request)
    (read write : List Str) :
    (req.Method ∈ [gostr "DELETE", gostr "PATCH", gostr "POST", gostr "PUT"] →
      authorizeWithPerms hh req read write = authorize hh req write) ∧
    (req.Method ∉ [gostr "DELETE", gostr "PATCH", gostr "POST", gostr "PUT"] →
      authorizeWithPerms hh req read write = authorize hh req read) := by
  constructor
  · intro hm
    have hcond : req.Method = gostr "DELETE" ∨ req.Method = gostr "PATCH" ∨
        req.Method = gostr "POST" ∨ req.Method = gostr "PUT" := by
      simpa [List.mem_cons] using hm
    simp [authorizeWithPerms, hcond]
  · intro hm
    have hcond : ¬(req.Method = gostr "DELETE" ∨ req.Method = gostr "PATCH" ∨
        req.Method = gostr "POST" ∨ req.Method = gostr "PUT") := by
      simpa [List.mem_cons] using hm
    simp [authorizeWithPerms, hcond]

/-- Witness for C9: POST selects the Write list, GET the Read list, at a
concrete handler and two concrete requests. -/
theorem method_selects_acl_witness :
    authorizeWithPerms
      (Handler.mk (Config.mk (gostr "admin") (gostr "secret") (gostr "loc"))
        (Store.mk true (Except.ok (Macaroon.mk 7))))
      (Request.mk (gostr "POST") [] (Except.error (BakeryErr.other "x")))
      [gostr "r"] [gostr "w"] =
      authorize
        (Handler.mk (Config.mk (gostr "admin") (gostr "secret") (gostr "loc"))
          (Store.mk true (Except.ok (Macaroon.mk 7))))
        (Request.mk (gostr "POST") [] (Except.error (BakeryErr.other "x")))
        [gostr "w"] ∧
    authorizeWithPerms
      (Handler.mk (Config.mk (gostr "admin") (gostr "secret") (gostr "loc"))
        (Store.mk true (Except.ok (Macaroon.mk 7))))
      (Request.mk (gostr "GET") [] (Except.error (BakeryErr.other "x")))
      [gostr "r"] [gostr "w"] =
      authorize
        (Handler.mk (Config.mk (gostr "admin") (gostr "secret") (gostr "loc"))
          (Store.mk true (Except.ok (Macaroon.mk 7))))
        (Request.mk (gostr "GET") [] (Except.error (BakeryErr.other "x")))
        [gostr "r"] :=
  ⟨(method_selects_acl _
      (Request.mk (gostr "POST") [] (Except.error (BakeryErr.other "x")))
      [gostr "r"] [gostr "w"]).1 (by decide),
    (method_selects_acl _
      (Request.mk (gostr "GET") [] (Except.error (BakeryErr.other "x")))
      [gostr "r"] [gostr "w"]).2 (by decide)⟩

end CharmstoreV4
